import Mathlib

/-!
Shallow embedding of the bank-account ledger (Go repository `bankapp`):
ledger entities (`models`), the storage port (`interfaces.Storage`), the
account transaction engine (`services.AccountServiceImpl`) and the in-memory
storage backend (`storage.MemoryStorage`).

Go `float64` amounts are modelled as `ℚ` (the engine only adds, subtracts and
compares amounts); each call to `time.Now()` in the source is modelled as an
explicit `Nat` argument (a nanosecond clock sample), so every operation takes
one clock argument per `time.Now()` occurrence in its Go body.
-/

/-- Models Go `type TransactionType string`. -/
abbrev TransactionType := String

/-- Models `DepositTransaction TransactionType = "DEPOSIT"`. -/
def DepositTransaction : TransactionType := "DEPOSIT"

/-- Models `WithdrawTransaction TransactionType = "WITHDRAW"`. -/
def WithdrawTransaction : TransactionType := "WITHDRAW"

/-- Models `TransferTransaction TransactionType = "TRANSFER"`. -/
def TransferTransaction : TransactionType := "TRANSFER"

/-- Models the Go `Transaction` struct (`models.Transaction`). The Go field
`Type` is rendered `Type'` because `Type` is a Lean keyword; `Timestamp`
(`time.Time` in Go) is a nanosecond clock sample. -/
structure Transaction where
  ID : String
  Type' : TransactionType
  Amount : ℚ
  Timestamp : Nat
  Message : String
deriving DecidableEq, Repr

/-- Models the Go `Account` struct (`models.Account`). -/
structure Account where
  ID : String
  OwnerName : String
  Balance : ℚ
  Transactions : List Transaction
  CreatedAt : Nat
deriving DecidableEq, Repr

/-- Models the error values of `bankapp/errors` plus a backend-dependent
persistence error (any other Go `error` a `Storage.SaveAccount` backend may
return; the spec calls it a persistence failure). -/
inductive Err where
  | ErrInsufficientFunds
  | ErrInvalidAmount
  | ErrAccountNotFound
  | ErrSameAccountTransfer
  | ErrStorage (msg : String)
deriving DecidableEq, Repr

/-- Digit-accumulating loop of decimal rendering, structurally recursive on a
fuel argument so that it evaluates by kernel reduction. -/
def natDecCore : Nat → Nat → List Char → List Char
  | 0, _, acc => acc
  | fuel + 1, n, acc =>
      if n < 10 then Nat.digitChar n :: acc
      else natDecCore fuel (n / 10) (Nat.digitChar (n % 10) :: acc)

/-- Decimal rendering of a natural number; models the `%d` verb of
`fmt.Sprintf`. -/
def natDec (n : Nat) : String := (natDecCore (n + 1) n []).asString

/-- Models `fmt.Sprintf("TX%d", time.Now().UnixNano())`: the transaction
identifier generated from a nanosecond clock sample. -/
def txID (nano : Nat) : String := "TX" ++ natDec nano

/-- Models the `%.2f` verb of `fmt.Sprintf` on the rational model of
`float64`: fixed-point rendering with two digits after the point, rounding
to the nearest hundredth. -/
def fmtF2 (q : ℚ) : String :=
  let cents : Nat := (round (|q| * 100) : ℤ).natAbs
  let sign := if q < 0 then "-" else ""
  let frac := cents % 100
  sign ++ natDec (cents / 100) ++ "." ++
    (if frac < 10 then "0" ++ natDec frac else natDec frac)

/-- Models `tx.Timestamp.Format("2006-01-02 15:04:05")`: an injective textual
rendering of the model's nanosecond timestamp. -/
def fmtTime (t : Nat) : String := natDec t

/-- Models the Go `Storage` interface (`interfaces.Storage`), polymorphic over
the backend state `σ`: `SaveAccount` returns the new backend state and an
optional error, `LoadAccount` and `GetAllAccounts` are reads. -/
structure Storage (σ : Type) where
  SaveAccount : σ → Account → σ × Option Err
  LoadAccount : σ → String → Except Err Account
  GetAllAccounts : σ → Except Err (List Account)

/-- State of the in-memory backend: the Go `map[string]*Account` keyed by
account identifier, as an association list with at most one entry per key. -/
abbrev MemStore := List (String × Account)

/-- Association-list lookup: models Go map indexing `s.accounts[accountID]`. -/
def lookupAccount : MemStore → String → Option Account
  | [], _ => none
  | (k, a) :: rest, id => if k = id then some a else lookupAccount rest id

/-- Association-list upsert: models Go map assignment
`s.accounts[account.ID] = account` (overwrites any prior entry). -/
def upsert : MemStore → String → Account → MemStore
  | [], k, a => [(k, a)]
  | (k0, a0) :: rest, k, a =>
      if k0 = k then (k, a) :: rest else (k0, a0) :: upsert rest k a

/-- Models `storage.MemoryStorage`: `SaveAccount` upserts and never fails,
`LoadAccount` fails with `ErrAccountNotFound` on a missing key,
`GetAllAccounts` returns every stored account. -/
def MemoryStorage : Storage MemStore where
  SaveAccount st acc := (upsert st acc.ID acc, none)
  LoadAccount st id :=
    match lookupAccount st id with
    | some a => .ok a
    | none => .error .ErrAccountNotFound
  GetAllAccounts st := .ok (st.map Prod.snd)

/-- The transaction record built inside `AccountServiceImpl.Deposit`. -/
def depositTx (nano now : Nat) (amount : ℚ) : Transaction :=
  { ID := txID nano, Type' := DepositTransaction, Amount := amount,
    Timestamp := now,
    Message := "Пополнение счета на " ++ fmtF2 amount }

/-- The transaction record built inside `AccountServiceImpl.Withdraw`. -/
def withdrawTx (nano now : Nat) (amount : ℚ) : Transaction :=
  { ID := txID nano, Type' := WithdrawTransaction, Amount := amount,
    Timestamp := now,
    Message := "Снятие средств на " ++ fmtF2 amount }

/-- The source-side transaction record built inside
`AccountServiceImpl.Transfer` (references the target identifier). -/
def transferOutTx (tgtID : String) (nano now : Nat) (amount : ℚ) :
    Transaction :=
  { ID := txID nano, Type' := TransferTransaction, Amount := amount,
    Timestamp := now,
    Message := "Перевод счету " ++ tgtID ++ " на " ++ fmtF2 amount }

/-- The target-side transaction record built inside
`AccountServiceImpl.Transfer` (references the source identifier). -/
def transferInTx (srcID : String) (nano now : Nat) (amount : ℚ) :
    Transaction :=
  { ID := txID nano, Type' := TransferTransaction, Amount := amount,
    Timestamp := now,
    Message := "Перевод от счета " ++ srcID ++ " на " ++ fmtF2 amount }

/-- Models `AccountServiceImpl.Deposit`. `nano` is the `time.Now().UnixNano()`
sample used for the transaction identifier and `now` the `time.Now()` sample
used for the timestamp. Returns the bound account after the in-place
mutations, the backend state after the save, and the returned error. -/
def Deposit {σ : Type} (S : Storage σ) (st : σ) (acc : Account)
    (nano now : Nat) (amount : ℚ) : Account × σ × Option Err :=
  if amount ≤ 0 then (acc, st, some .ErrInvalidAmount)
  else
    let acc1 := { acc with Balance := acc.Balance + amount }
    let acc2 :=
      { acc1 with Transactions := acc1.Transactions ++ [depositTx nano now amount] }
    let (st1, r) := S.SaveAccount st acc2
    (acc2, st1, r)

/-- Models `AccountServiceImpl.Withdraw`. -/
def Withdraw {σ : Type} (S : Storage σ) (st : σ) (acc : Account)
    (nano now : Nat) (amount : ℚ) : Account × σ × Option Err :=
  if amount ≤ 0 then (acc, st, some .ErrInvalidAmount)
  else if acc.Balance < amount then (acc, st, some .ErrInsufficientFunds)
  else
    let acc1 := { acc with Balance := acc.Balance - amount }
    let acc2 :=
      { acc1 with Transactions := acc1.Transactions ++ [withdrawTx nano now amount] }
    let (st1, r) := S.SaveAccount st acc2
    (acc2, st1, r)

/-- Models `AccountServiceImpl.Transfer`. The Go body samples `time.Now()`
four times (source-record identifier and timestamp, then target-record
identifier and timestamp): `nano1 now1 nano2 now2`. Returns the source
account, the target account, the backend state and the returned error. -/
def Transfer {σ : Type} (S : Storage σ) (st : σ) (src tgt : Account)
    (nano1 now1 nano2 now2 : Nat) (amount : ℚ) :
    Account × Account × σ × Option Err :=
  if amount ≤ 0 then (src, tgt, st, some .ErrInvalidAmount)
  else if src.Balance < amount then (src, tgt, st, some .ErrInsufficientFunds)
  else if src.ID = tgt.ID then (src, tgt, st, some .ErrSameAccountTransfer)
  else
    let src1 := { src with Balance := src.Balance - amount }
    let src2 :=
      { src1 with
        Transactions := src1.Transactions ++ [transferOutTx tgt.ID nano1 now1 amount] }
    let tgt1 := { tgt with Balance := tgt.Balance + amount }
    let tgt2 :=
      { tgt1 with
        Transactions := tgt1.Transactions ++ [transferInTx src.ID nano2 now2 amount] }
    match S.SaveAccount st src2 with
    | (st1, some e) => (src2, tgt2, st1, some e)
    | (st1, none) =>
        let (st2, r) := S.SaveAccount st1 tgt2
        (src2, tgt2, st2, r)

/-- Models `AccountServiceImpl.GetBalance`. -/
def GetBalance (acc : Account) : ℚ := acc.Balance

/-- The separator line written repeatedly by `GetStatement`. -/
def sepLine : String := "========================================\n"

/-- One transaction line of the statement:
`timestamp | type | amount | message`, as written inside the `for` loop of
`AccountServiceImpl.GetStatement`. -/
def txLine (tx : Transaction) : String :=
  fmtTime tx.Timestamp ++ " | " ++ tx.Type' ++ " | " ++ fmtF2 tx.Amount ++
    " | " ++ tx.Message ++ "\n"

/-- Models `AccountServiceImpl.GetStatement`: the `strings.Builder` is the
accumulated string, the `for` loop is a fold over the transaction sequence. -/
def GetStatement (acc : Account) : String :=
  if acc.Transactions.length = 0 then "История транзакций пуста"
  else
    let sb := "Выписка по счету:\n"
    let sb := sb ++ sepLine
    let sb := sb ++ ("Владелец: " ++ acc.OwnerName ++ "\n")
    let sb := sb ++ ("ID счета: " ++ acc.ID ++ "\n")
    let sb := sb ++ sepLine
    let sb := acc.Transactions.foldl (fun b tx => b ++ txLine tx) sb
    let sb := sb ++ sepLine
    let sb := sb ++ ("Текущий баланс: " ++ fmtF2 acc.Balance ++ "\n")
    sb

/-- One engine invocation on the system driven through the in-memory backend:
the caller (the excluded CLI) binds the engine to an account held in storage
and, for a transfer, loads the target account from storage
(`app.storage.LoadAccount(toAccountID)`). Clock samples are carried in the
operation. -/
inductive Op where
  | deposit (id : String) (nano now : Nat) (amount : ℚ)
  | withdraw (id : String) (nano now : Nat) (amount : ℚ)
  | transfer (srcId tgtId : String) (nano1 now1 nano2 now2 : Nat) (amount : ℚ)
deriving DecidableEq, Repr

/-- Runs one `Op` against the in-memory backend: the bound account (and the
transfer target) are the stored values, the engine mutates them and saves
through `MemoryStorage`; a failed load or a failed validation leaves the
store as the engine left it (unchanged, since `MemoryStorage.SaveAccount`
never fails and validation failures do not reach the save). -/
def applyOp (st : MemStore) : Op → MemStore × Option Err
  | .deposit id nano now amount =>
      match lookupAccount st id with
      | none => (st, some .ErrAccountNotFound)
      | some acc =>
          let (_, st1, r) := Deposit MemoryStorage st acc nano now amount
          (st1, r)
  | .withdraw id nano now amount =>
      match lookupAccount st id with
      | none => (st, some .ErrAccountNotFound)
      | some acc =>
          let (_, st1, r) := Withdraw MemoryStorage st acc nano now amount
          (st1, r)
  | .transfer srcId tgtId nano1 now1 nano2 now2 amount =>
      match lookupAccount st srcId with
      | none => (st, some .ErrAccountNotFound)
      | some src =>
          match lookupAccount st tgtId with
          | none => (st, some .ErrAccountNotFound)
          | some tgt =>
              let (_, _, st1, r) :=
                Transfer MemoryStorage st src tgt nano1 now1 nano2 now2 amount
              (st1, r)

/-- Runs a sequence of operations, keeping the storage state. -/
def applyOps (st : MemStore) (ops : List Op) : MemStore :=
  ops.foldl (fun s op => (applyOp s op).1) st

/-- All balances reachable through the in-memory storage port are
non-negative. -/
def allNonneg (st : MemStore) : Prop := ∀ p ∈ st, 0 ≤ (Prod.snd p).Balance

instance (st : MemStore) : Decidable (allNonneg st) := by
  unfold allNonneg; infer_instance

/-- A durable-style backend whose save fails with an I/O-style persistence
error exactly for accounts whose identifier is `"B"` (the spec's
backend-dependent persistence failure); used to exercise the engine's
behaviour when `SaveAccount` returns an error. -/
def FailingStorage : Storage Unit where
  SaveAccount st acc :=
    if acc.ID = "B" then (st, some (.ErrStorage "i/o error")) else (st, none)
  LoadAccount _ _ := .error .ErrAccountNotFound
  GetAllAccounts _ := .ok []

/-! Helper lemmas about the in-memory store. -/

theorem lookupAccount_upsert_self (st : MemStore) (k : String) (a : Account) :
    lookupAccount (upsert st k a) k = some a := by
  induction st with
  | nil => simp [upsert, lookupAccount]
  | cons p rest ih =>
      obtain ⟨k0, a0⟩ := p
      by_cases h : k0 = k
      · simp [upsert, h, lookupAccount]
      · simp [upsert, h, lookupAccount, ih]

theorem mem_upsert {st : MemStore} {k : String} {a : Account} {p : String × Account}
    (hp : p ∈ upsert st k a) : p = (k, a) ∨ p ∈ st := by
  induction st with
  | nil => simpa [upsert] using hp
  | cons q rest ih =>
      obtain ⟨k0, a0⟩ := q
      by_cases h : k0 = k
      · simp only [upsert, if_pos h, List.mem_cons] at hp
        rcases hp with h1 | h1
        · exact Or.inl h1
        · exact Or.inr (List.mem_cons_of_mem _ h1)
      · simp only [upsert, if_neg h, List.mem_cons] at hp
        rcases hp with h1 | h1
        · exact Or.inr (h1 ▸ List.mem_cons_self _ _)
        · rcases ih h1 with h2 | h2
          · exact Or.inl h2
          · exact Or.inr (List.mem_cons_of_mem _ h2)

theorem mem_of_lookupAccount {st : MemStore} {id : String} {a : Account}
    (h : lookupAccount st id = some a) : (id, a) ∈ st := by
  induction st with
  | nil => simp [lookupAccount] at h
  | cons p rest ih =>
      obtain ⟨k0, a0⟩ := p
      by_cases hk : k0 = id
      · simp only [lookupAccount, if_pos hk, Option.some.injEq] at h
        subst hk; subst h; exact List.mem_cons_self _ _
      · simp only [lookupAccount, if_neg hk] at h
        exact List.mem_cons_of_mem _ (ih h)

theorem upsert_idem (st : MemStore) (k : String) (a : Account) :
    upsert (upsert st k a) k a = upsert st k a := by
  induction st with
  | nil => simp [upsert]
  | cons p rest ih =>
      obtain ⟨k0, a0⟩ := p
      by_cases h : k0 = k
      · simp [upsert, h]
      · simp [upsert, h, ih]

/-! Helper lemmas about decimal rendering, leading to injectivity of the
generated transaction identifiers. -/

theorem natDecCore_eq_digits :
    ∀ (fuel n : Nat) (acc : List Char), n < fuel → n ≠ 0 →
      natDecCore fuel n acc =
        ((Nat.digits 10 n).map Nat.digitChar).reverse ++ acc := by
  intro fuel
  induction fuel with
  | zero => intro n acc h; omega
  | succ fuel ih =>
      intro n acc hlt hne
      have hpos : 0 < n := Nat.pos_of_ne_zero hne
      have hd : Nat.digits 10 n = n % 10 :: Nat.digits 10 (n / 10) :=
        Nat.digits_def' (by norm_num) hpos
      by_cases h10 : n < 10
      · have hmod : n % 10 = n := Nat.mod_eq_of_lt h10
        have hdiv : n / 10 = 0 := Nat.div_eq_of_lt h10
        simp [natDecCore, h10, hd, hmod, hdiv]
      · have hdivne : n / 10 ≠ 0 :=
          Nat.ne_of_gt (Nat.div_pos (le_of_not_lt h10) (by norm_num))
        have hlt' : n / 10 < fuel :=
          lt_of_lt_of_le (Nat.div_lt_self hpos (by norm_num))
            (Nat.lt_succ_iff.mp hlt)
        simp only [natDecCore, if_neg h10]
        rw [ih _ _ hlt' hdivne, hd]
        simp

theorem natDec_eq (n : Nat) :
    natDec n =
      if n = 0 then "0"
      else (((Nat.digits 10 n).map Nat.digitChar).reverse).asString := by
  by_cases h : n = 0
  · subst h; rfl
  · simp only [natDec, if_neg h,
      natDecCore_eq_digits (n + 1) n [] (Nat.lt_succ_self n) h,
      List.append_nil]

theorem digitChar_inj_lt :
    ∀ a, a < 10 → ∀ b, b < 10 → Nat.digitChar a = Nat.digitChar b → a = b := by
  decide

theorem map_digitChar_inj :
    ∀ (l1 l2 : List Nat), (∀ d ∈ l1, d < 10) → (∀ d ∈ l2, d < 10) →
      l1.map Nat.digitChar = l2.map Nat.digitChar → l1 = l2
  | [], [], _, _, _ => rfl
  | [], _ :: _, _, _, h => by simp at h
  | _ :: _, [], _, _, h => by simp at h
  | a :: l1, b :: l2, h1, h2, h => by
      simp only [List.map_cons, List.cons.injEq] at h
      have ha : a = b :=
        digitChar_inj_lt a (h1 a (List.mem_cons_self _ _))
          b (h2 b (List.mem_cons_self _ _)) h.1
      have hl : l1 = l2 :=
        map_digitChar_inj l1 l2
          (fun d hd => h1 d (List.mem_cons_of_mem _ hd))
          (fun d hd => h2 d (List.mem_cons_of_mem _ hd)) h.2
      rw [ha, hl]

theorem asString_inj {l1 l2 : List Char} (h : l1.asString = l2.asString) :
    l1 = l2 := by
  simpa [List.asString] using congrArg String.data h

theorem digits_all_lt (n : Nat) : ∀ d ∈ Nat.digits 10 n, d < 10 :=
  fun _ hd => Nat.digits_lt_base (by norm_num) hd

theorem digits_ne_zero_singleton {n : Nat} (hn : n ≠ 0)
    (h : Nat.digits 10 n = [0]) : False := by
  have := Nat.ofDigits_digits 10 n
  rw [h] at this
  simp [Nat.ofDigits] at this
  exact hn this.symm

theorem natDec_injective : Function.Injective natDec := by
  intro a b h
  rw [natDec_eq, natDec_eq] at h
  by_cases ha : a = 0 <;> by_cases hb : b = 0
  · rw [ha, hb]
  · exfalso
    rw [if_pos ha, if_neg hb] at h
    have hdata := congrArg String.data h
    simp only [List.asString] at hdata
    have hrev : (Nat.digits 10 b).map Nat.digitChar = ['0'] := by
      have := congrArg List.reverse hdata
      simpa using this.symm
    have hlen : (Nat.digits 10 b).length = 1 := by
      have := congrArg List.length hrev
      simpa using this
    obtain ⟨d, hd⟩ := List.length_eq_one.mp hlen
    rw [hd] at hrev
    simp only [List.map_cons, List.map_nil, List.cons.injEq] at hrev
    have hd10 : d < 10 := digits_all_lt b d (hd ▸ List.mem_cons_self _ _)
    have hd0 : d = 0 :=
      digitChar_inj_lt d hd10 0 (by norm_num) (by rw [hrev.1]; rfl)
    exact digits_ne_zero_singleton hb (hd0 ▸ hd)
  · exfalso
    rw [if_neg ha, if_pos hb] at h
    have hdata := congrArg String.data h
    simp only [List.asString] at hdata
    have hrev : (Nat.digits 10 a).map Nat.digitChar = ['0'] := by
      have := congrArg List.reverse hdata
      simpa using this
    have hlen : (Nat.digits 10 a).length = 1 := by
      have := congrArg List.length hrev
      simpa using this
    obtain ⟨d, hd⟩ := List.length_eq_one.mp hlen
    rw [hd] at hrev
    simp only [List.map_cons, List.map_nil, List.cons.injEq] at hrev
    have hd10 : d < 10 := digits_all_lt a d (hd ▸ List.mem_cons_self _ _)
    have hd0 : d = 0 :=
      digitChar_inj_lt d hd10 0 (by norm_num) (by rw [hrev.1]; rfl)
    exact digits_ne_zero_singleton ha (hd0 ▸ hd)
  · rw [if_neg ha, if_neg hb] at h
    have hmap := List.reverse_injective (asString_inj h)
    exact Nat.digits.injective 10
      (map_digitChar_inj _ _ (digits_all_lt a) (digits_all_lt b) hmap)

theorem txID_injective : Function.Injective txID := by
  intro a b h
  apply natDec_injective
  apply String.ext
  have hdata := congrArg String.data h
  simp only [txID, String.data_append] at hdata
  exact List.append_cancel_left hdata

/-! Helper lemma for the statement rendering. -/

theorem join_cons (s : String) (l : List String) :
    String.join (s :: l) = s ++ String.join l := by
  apply String.ext
  simp [String.join_eq]

theorem foldl_txLine (l : List Transaction) (s : String) :
    l.foldl (fun b tx => b ++ txLine tx) s = s ++ String.join (l.map txLine) := by
  induction l generalizing s with
  | nil =>
      apply String.ext
      simp [String.join_eq]
  | cons tx rest ih =>
      simp only [List.foldl_cons, List.map_cons, join_cons, ih]
      apply String.ext
      simp

/-- Claim C9: for every store state and account, saving through the in-memory
storage port and loading by the account's identifier returns exactly the
saved state (balance and full transaction sequence, since the whole `Account`
value is returned), and a second save of the same state leaves the stored
entries exactly as after the first save. -/
theorem memoryStorage_roundtrip_and_idem (st : MemStore) (acc : Account) :
    MemoryStorage.LoadAccount (MemoryStorage.SaveAccount st acc).1 acc.ID =
      Except.ok acc ∧
    (MemoryStorage.SaveAccount (MemoryStorage.SaveAccount st acc).1 acc).1 =
      (MemoryStorage.SaveAccount st acc).1 := by
  constructor
  · simp [MemoryStorage, lookupAccount_upsert_self]
  · simp [MemoryStorage, upsert_idem]

/-- Claim C8: `GetStatement` of an account with no transactions is the fixed
empty-history message; with a non-empty history it is the header (owner and
identifier), then one `timestamp | type | amount | message` line per
transaction in append order, then the current balance. (`GetStatement` is a
pure function of the account, so it performs no state mutation.) -/
theorem getStatement_spec (acc : Account) :
    (acc.Transactions = [] → GetStatement acc = "История транзакций пуста") ∧
    (acc.Transactions ≠ [] →
      GetStatement acc =
        "Выписка по счету:\n" ++ sepLine ++
        ("Владелец: " ++ acc.OwnerName ++ "\n") ++
        ("ID счета: " ++ acc.ID ++ "\n") ++ sepLine ++
        String.join (acc.Transactions.map txLine) ++ sepLine ++
        ("Текущий баланс: " ++ fmtF2 acc.Balance ++ "\n")) := by
  constructor
  · intro h; simp [GetStatement, h]
  · intro h
    have hlen : ¬ acc.Transactions.length = 0 := by simpa using h
    simp only [GetStatement, if_neg hlen]
    rw [foldl_txLine]

theorem getStatement_spec_witness :
    GetStatement ⟨"ACC1", "Alice", 3, [], 0⟩ = "История транзакций пуста" ∧
    GetStatement ⟨"ACC1", "Alice", 3,
        [⟨"TX1", DepositTransaction, 100, 2, "m"⟩], 0⟩ =
      "Выписка по счету:\n" ++ sepLine ++
      ("Владелец: " ++ "Alice" ++ "\n") ++
      ("ID счета: " ++ "ACC1" ++ "\n") ++ sepLine ++
      String.join ([⟨"TX1", DepositTransaction, 100, 2, "m"⟩].map txLine) ++
      sepLine ++ ("Текущий баланс: " ++ fmtF2 3 ++ "\n") :=
  ⟨(getStatement_spec _).1 rfl, (getStatement_spec _).2 (by simp)⟩

/-- Claim C3 counterexample: `Transfer` on a target with the source's own
identifier but a non-positive amount fails with `ErrInvalidAmount`, not
`ErrSameAccountTransfer` — the amount check precedes the same-account check
in the source. -/
theorem transfer_same_account_counterexample :
    (Transfer MemoryStorage [] ⟨"ACC1", "a", 5, [], 0⟩ ⟨"ACC1", "x", 0, [], 0⟩
        1 2 3 4 (-1)).2.2.2 = some Err.ErrInvalidAmount ∧
    (Transfer MemoryStorage [] ⟨"ACC1", "a", 5, [], 0⟩ ⟨"ACC1", "x", 0, [], 0⟩
        1 2 3 4 (-1)).2.2.2 ≠ some Err.ErrSameAccountTransfer := by
  constructor <;> norm_num [Transfer] <;> decide

/-- Claim C3 amended: for every backend, `Transfer` to a target whose
identifier equals the source's fails with `ErrSameAccountTransfer` (leaving
accounts and backend unchanged) provided the amount is positive and covered
by the source balance; otherwise the earlier `ErrInvalidAmount` or
`ErrInsufficientFunds` checks fire first. -/
theorem transfer_same_account_fails {σ : Type} (S : Storage σ) (st : σ)
    (src tgt : Account) (n1 t1 n2 t2 : Nat) (A : ℚ)
    (hA : 0 < A) (hbal : A ≤ src.Balance) (hid : src.ID = tgt.ID) :
    Transfer S st src tgt n1 t1 n2 t2 A =
      (src, tgt, st, some Err.ErrSameAccountTransfer) := by
  simp only [Transfer, if_neg (not_le.mpr hA), if_neg (not_lt.mpr hbal),
    if_pos hid]

theorem transfer_same_account_fails_witness :
    Transfer MemoryStorage [] ⟨"ACC1", "a", 5, [], 0⟩ ⟨"ACC1", "x", 0, [], 0⟩
        1 2 3 4 1 =
      (⟨"ACC1", "a", 5, [], 0⟩, ⟨"ACC1", "x", 0, [], 0⟩, [],
        some Err.ErrSameAccountTransfer) :=
  transfer_same_account_fails MemoryStorage [] _ _ 1 2 3 4 1
    (by decide) (by decide) rfl

/-- Claim C4 counterexample: at an account state whose balance is negative,
`Withdraw` of a (negative) amount greater than the balance fails with
`ErrInvalidAmount`, not `ErrInsufficientFunds` — the amount-sign check
precedes the funds check in the source. -/
theorem withdraw_validation_counterexample :
    ((-2 : ℚ) < -1) ∧
    (Withdraw MemoryStorage [] ⟨"ACC1", "a", -2, [], 0⟩ 1 2 (-1)).2.2 =
      some Err.ErrInvalidAmount ∧
    (Withdraw MemoryStorage [] ⟨"ACC1", "a", -2, [], 0⟩ 1 2 (-1)).2.2 ≠
      some Err.ErrInsufficientFunds := by
  refine ⟨by norm_num, ?_, ?_⟩ <;> norm_num [Withdraw] <;> decide

/-- Claim C4 amended: for every backend and every account state with
non-negative balance, `Deposit` of a non-positive amount fails with
`ErrInvalidAmount` and `Withdraw` of an amount exceeding the balance fails
with `ErrInsufficientFunds`; in both cases the bound account and the backend
state are returned exactly unchanged. -/
theorem deposit_withdraw_validation {σ : Type} (S : Storage σ) (st : σ)
    (acc : Account) (nano now : Nat) (amount : ℚ) (hbal : 0 ≤ acc.Balance) :
    (amount ≤ 0 →
      Deposit S st acc nano now amount = (acc, st, some Err.ErrInvalidAmount)) ∧
    (acc.Balance < amount →
      Withdraw S st acc nano now amount =
        (acc, st, some Err.ErrInsufficientFunds)) := by
  constructor
  · intro h; simp [Deposit, h]
  · intro h
    have h0 : ¬ amount ≤ 0 := not_le.mpr (lt_of_le_of_lt hbal h)
    simp only [Withdraw, if_neg h0, if_pos h]

theorem deposit_withdraw_validation_witness :
    Deposit MemoryStorage [] ⟨"ACC1", "a", 5, [], 0⟩ 1 2 (-3) =
      (⟨"ACC1", "a", 5, [], 0⟩, [], some Err.ErrInvalidAmount) ∧
    Withdraw MemoryStorage [] ⟨"ACC1", "a", 5, [], 0⟩ 1 2 9 =
      (⟨"ACC1", "a", 5, [], 0⟩, [], some Err.ErrInsufficientFunds) :=
  ⟨(deposit_withdraw_validation MemoryStorage [] _ 1 2 (-3) (by decide)).1
      (by decide),
   (deposit_withdraw_validation MemoryStorage [] _ 1 2 9 (by decide)).2
      (by decide)⟩

/-- Claim C6: for every store, account and positive amount, `Deposit` through
the in-memory backend increments the balance by exactly the amount, appends
exactly one `DEPOSIT` transaction record carrying that amount, persists the
mutated account in the store under its identifier, and returns success. -/
theorem deposit_success (st : MemStore) (acc : Account) (nano now : Nat)
    (A : ℚ) (hA : 0 < A) :
    Deposit MemoryStorage st acc nano now A =
      ({ acc with
          Balance := acc.Balance + A
          Transactions := acc.Transactions ++ [depositTx nano now A] },
       upsert st acc.ID
         { acc with
           Balance := acc.Balance + A
           Transactions := acc.Transactions ++ [depositTx nano now A] },
       none) ∧
    (depositTx nano now A).Amount = A ∧
    (depositTx nano now A).Type' = DepositTransaction := by
  refine ⟨?_, rfl, rfl⟩
  simp only [Deposit, if_neg (not_le.mpr hA), MemoryStorage]

theorem deposit_success_witness :
    Deposit MemoryStorage [] ⟨"ACC1", "a", 0, [], 0⟩ 1 2 100 =
      (⟨"ACC1", "a", 0 + 100, [] ++ [depositTx 1 2 100], 0⟩,
       upsert [] "ACC1" ⟨"ACC1", "a", 0 + 100, [] ++ [depositTx 1 2 100], 0⟩,
       none) ∧
    (depositTx 1 2 100).Amount = 100 ∧
    (depositTx 1 2 100).Type' = DepositTransaction :=
  deposit_success [] ⟨"ACC1", "a", 0, [], 0⟩ 1 2 100 (by decide)

/-- Claim C2: a `Transfer` of a positive amount covered by the source balance
between accounts with distinct identifiers succeeds: the source balance is
decremented and the target balance incremented by exactly that amount, each
account's transaction sequence grows by exactly one appended record, both
records carry the transferred amount, and both accounts are persisted. -/
theorem transfer_success (st : MemStore) (src tgt : Account)
    (n1 t1 n2 t2 : Nat) (A : ℚ)
    (hA : 0 < A) (hbal : A ≤ src.Balance) (hid : src.ID ≠ tgt.ID) :
    Transfer MemoryStorage st src tgt n1 t1 n2 t2 A =
      ({ src with
          Balance := src.Balance - A
          Transactions := src.Transactions ++ [transferOutTx tgt.ID n1 t1 A] },
       { tgt with
          Balance := tgt.Balance + A
          Transactions := tgt.Transactions ++ [transferInTx src.ID n2 t2 A] },
       upsert
         (upsert st src.ID
           { src with
             Balance := src.Balance - A
             Transactions := src.Transactions ++ [transferOutTx tgt.ID n1 t1 A] })
         tgt.ID
         { tgt with
           Balance := tgt.Balance + A
           Transactions := tgt.Transactions ++ [transferInTx src.ID n2 t2 A] },
       none) ∧
    (transferOutTx tgt.ID n1 t1 A).Amount = A ∧
    (transferInTx src.ID n2 t2 A).Amount = A := by
  refine ⟨?_, rfl, rfl⟩
  simp only [Transfer, if_neg (not_le.mpr hA), if_neg (not_lt.mpr hbal),
    if_neg hid, MemoryStorage]

theorem transfer_success_witness :
    Transfer MemoryStorage [] ⟨"ACC1", "a", 100, [], 0⟩ ⟨"ACC2", "b", 7, [], 0⟩
        1 2 3 4 40 =
      (⟨"ACC1", "a", 100 - 40, [] ++ [transferOutTx "ACC2" 1 2 40], 0⟩,
       ⟨"ACC2", "b", 7 + 40, [] ++ [transferInTx "ACC1" 3 4 40], 0⟩,
       upsert
         (upsert [] "ACC1" ⟨"ACC1", "a", 100 - 40, [] ++ [transferOutTx "ACC2" 1 2 40], 0⟩)
         "ACC2" ⟨"ACC2", "b", 7 + 40, [] ++ [transferInTx "ACC1" 3 4 40], 0⟩,
       none) ∧
    (transferOutTx "ACC2" 1 2 40).Amount = 40 ∧
    (transferInTx "ACC1" 3 4 40).Amount = 40 :=
  transfer_success [] ⟨"ACC1", "a", 100, [], 0⟩ ⟨"ACC2", "b", 7, [], 0⟩
    1 2 3 4 40 (by decide) (by decide) (by decide)

/-- Claim C5: when a `Transfer` passes validation, the save of the source
succeeds and the save of the target fails, the operation returns the target's
persistence error while both returned in-memory accounts carry the full
mutation (debited source, credited target, both appended records); no
rollback occurs. -/
theorem transfer_partial_failure {σ : Type} (S : Storage σ) (st st1 st2 : σ)
    (src tgt : Account) (n1 t1 n2 t2 : Nat) (A : ℚ) (e : Err)
    (hA : 0 < A) (hbal : A ≤ src.Balance) (hid : src.ID ≠ tgt.ID)
    (hs1 : S.SaveAccount st
        { src with
          Balance := src.Balance - A
          Transactions := src.Transactions ++ [transferOutTx tgt.ID n1 t1 A] } =
      (st1, none))
    (hs2 : S.SaveAccount st1
        { tgt with
          Balance := tgt.Balance + A
          Transactions := tgt.Transactions ++ [transferInTx src.ID n2 t2 A] } =
      (st2, some e)) :
    Transfer S st src tgt n1 t1 n2 t2 A =
      ({ src with
          Balance := src.Balance - A
          Transactions := src.Transactions ++ [transferOutTx tgt.ID n1 t1 A] },
       { tgt with
          Balance := tgt.Balance + A
          Transactions := tgt.Transactions ++ [transferInTx src.ID n2 t2 A] },
       st2, some e) := by
  simp only [Transfer, if_neg (not_le.mpr hA), if_neg (not_lt.mpr hbal),
    if_neg hid, hs1, hs2]

theorem transfer_partial_failure_witness :
    Transfer FailingStorage () ⟨"A", "a", 100, [], 0⟩ ⟨"B", "b", 7, [], 0⟩
        1 2 3 4 40 =
      (⟨"A", "a", 100 - 40, [] ++ [transferOutTx "B" 1 2 40], 0⟩,
       ⟨"B", "b", 7 + 40, [] ++ [transferInTx "A" 3 4 40], 0⟩,
       (), some (Err.ErrStorage "i/o error")) :=
  transfer_partial_failure FailingStorage () () () ⟨"A", "a", 100, [], 0⟩
    ⟨"B", "b", 7, [], 0⟩ 1 2 3 4 40 (Err.ErrStorage "i/o error")
    (by decide) (by decide) (by decide) rfl rfl

/-- Claim C10: `Deposit` and `Withdraw` mutate the bound account in memory
before calling the storage port's save; for every backend whose save of the
mutated account returns an error, the operation returns that error while the
returned account still carries the mutation (changed balance and the appended
record), so single-account operations are also non-atomic with respect to
persistence failure. -/
theorem deposit_withdraw_save_failure {σ : Type} (S : Storage σ) (st st' : σ)
    (acc : Account) (nano now : Nat) (A : ℚ) (e : Err) :
    (0 < A →
      S.SaveAccount st
          { acc with
            Balance := acc.Balance + A
            Transactions := acc.Transactions ++ [depositTx nano now A] } =
        (st', some e) →
      Deposit S st acc nano now A =
        ({ acc with
            Balance := acc.Balance + A
            Transactions := acc.Transactions ++ [depositTx nano now A] },
         st', some e)) ∧
    (0 < A → A ≤ acc.Balance →
      S.SaveAccount st
          { acc with
            Balance := acc.Balance - A
            Transactions := acc.Transactions ++ [withdrawTx nano now A] } =
        (st', some e) →
      Withdraw S st acc nano now A =
        ({ acc with
            Balance := acc.Balance - A
            Transactions := acc.Transactions ++ [withdrawTx nano now A] },
         st', some e)) := by
  constructor
  · intro hA hsave
    simp only [Deposit, if_neg (not_le.mpr hA), hsave]
  · intro hA hbal hsave
    simp only [Withdraw, if_neg (not_le.mpr hA), if_neg (not_lt.mpr hbal), hsave]

theorem deposit_withdraw_save_failure_witness :
    Deposit FailingStorage () ⟨"B", "b", 5, [], 0⟩ 1 2 100 =
      (⟨"B", "b", 5 + 100, [] ++ [depositTx 1 2 100], 0⟩, (),
        some (Err.ErrStorage "i/o error")) ∧
    Withdraw FailingStorage () ⟨"B", "b", 5, [], 0⟩ 1 2 4 =
      (⟨"B", "b", 5 - 4, [] ++ [withdrawTx 1 2 4], 0⟩, (),
        some (Err.ErrStorage "i/o error")) :=
  ⟨(deposit_withdraw_save_failure FailingStorage () () ⟨"B", "b", 5, [], 0⟩
      1 2 100 (Err.ErrStorage "i/o error")).1 (by decide) rfl,
   (deposit_withdraw_save_failure FailingStorage () () ⟨"B", "b", 5, [], 0⟩
      1 2 4 (Err.ErrStorage "i/o error")).2 (by decide) (by decide) rfl⟩

/-- Claim C7 counterexample: two deposits whose `time.Now().UnixNano()`
samples coincide (the same clock tick) create two distinct transaction
records carrying the same generated identifier, so identifiers are not
unique across the system's lifetime. -/
theorem txID_collision_counterexample :
    ((Deposit MemoryStorage [] ⟨"A", "a", 0, [], 0⟩ 7 8 1).1.Transactions.map
        Transaction.ID =
      (Deposit MemoryStorage [] ⟨"B", "b", 0, [], 0⟩ 7 9 2).1.Transactions.map
        Transaction.ID) ∧
    (Deposit MemoryStorage [] ⟨"A", "a", 0, [], 0⟩ 7 8 1).1.Transactions ≠
      (Deposit MemoryStorage [] ⟨"B", "b", 0, [], 0⟩ 7 9 2).1.Transactions := by
  have e1 : (Deposit MemoryStorage [] ⟨"A", "a", 0, [], 0⟩ 7 8 1).1.Transactions
      = [depositTx 7 8 1] := by norm_num [Deposit]
  have e2 : (Deposit MemoryStorage [] ⟨"B", "b", 0, [], 0⟩ 7 9 2).1.Transactions
      = [depositTx 7 9 2] := by norm_num [Deposit]
  constructor
  · rw [e1, e2]; simp [depositTx]
  · rw [e1, e2]
    intro hc
    simp [depositTx, Transaction.mk.injEq] at hc

/-- Claim C7 amended: generated transaction identifiers are unique provided
the nanosecond clock samples at the two record creations differ — the scheme
`fmt.Sprintf("TX%d", time.Now().UnixNano())` is injective in the clock
sample, so only operations falling in the same clock tick can collide. -/
theorem txID_unique_of_distinct_nanos (n1 n2 : Nat) (h : n1 ≠ n2) :
    txID n1 ≠ txID n2 :=
  fun hc => h (txID_injective hc)

theorem txID_unique_of_distinct_nanos_witness :
    txID 1 ≠ txID 2 :=
  txID_unique_of_distinct_nanos 1 2 (by decide)

theorem applyOp_nonneg {st : MemStore} (h : allNonneg st) (op : Op) :
    allNonneg (applyOp st op).1 := by
  cases op with
  | deposit id nano now amount =>
      cases hlk : lookupAccount st id with
      | none => simpa [applyOp, hlk] using h
      | some acc =>
          have hacc : 0 ≤ acc.Balance := h _ (mem_of_lookupAccount hlk)
          by_cases hle : amount ≤ 0
          · simpa [applyOp, hlk, Deposit, hle] using h
          · intro p hp
            simp only [applyOp, hlk, Deposit, if_neg hle, MemoryStorage] at hp
            rcases mem_upsert hp with rfl | hmem
            · have : (0:ℚ) < amount := not_le.mp hle
              simpa using add_nonneg hacc (le_of_lt this)
            · exact h _ hmem
  | withdraw id nano now amount =>
      cases hlk : lookupAccount st id with
      | none => simpa [applyOp, hlk] using h
      | some acc =>
          have hacc : 0 ≤ acc.Balance := h _ (mem_of_lookupAccount hlk)
          by_cases hle : amount ≤ 0
          · simpa [applyOp, hlk, Withdraw, hle] using h
          · by_cases hins : acc.Balance < amount
            · simpa [applyOp, hlk, Withdraw, hle, hins] using h
            · intro p hp
              simp only [applyOp, hlk, Withdraw, if_neg hle, if_neg hins,
                MemoryStorage] at hp
              rcases mem_upsert hp with rfl | hmem
              · simpa using sub_nonneg.mpr (not_lt.mp hins)
              · exact h _ hmem
  | transfer srcId tgtId n1 t1 n2 t2 amount =>
      cases hsrc : lookupAccount st srcId with
      | none => simpa [applyOp, hsrc] using h
      | some src =>
          cases htgt : lookupAccount st tgtId with
          | none => simpa [applyOp, hsrc, htgt] using h
          | some tgt =>
              have hsb : 0 ≤ src.Balance := h _ (mem_of_lookupAccount hsrc)
              have htb : 0 ≤ tgt.Balance := h _ (mem_of_lookupAccount htgt)
              by_cases hle : amount ≤ 0
              · simpa [applyOp, hsrc, htgt, Transfer, hle] using h
              · by_cases hins : src.Balance < amount
                · simpa [applyOp, hsrc, htgt, Transfer, hle, hins] using h
                · by_cases hsame : src.ID = tgt.ID
                  · simpa [applyOp, hsrc, htgt, Transfer, hle, hins, hsame]
                      using h
                  · intro p hp
                    simp only [applyOp, hsrc, htgt, Transfer, if_neg hle,
                      if_neg hins, if_neg hsame, MemoryStorage] at hp
                    rcases mem_upsert hp with rfl | hmem
                    · simpa using
                        add_nonneg htb (le_of_lt (not_le.mp hle))
                    · rcases mem_upsert hmem with rfl | hmem2
                      · simpa using sub_nonneg.mpr (not_lt.mp hins)
                      · exact h _ hmem2

/-- Claim C1: starting from a store in which every balance is non-negative,
after any sequence of `Deposit`, `Withdraw` and `Transfer` operations driven
through the in-memory storage port, every account balance reachable through
the port is still non-negative (failed validations leave the store unchanged,
successful debits require the balance to cover the amount, and credits add a
positive amount). -/
theorem balances_nonneg (ops : List Op) (st : MemStore) (h : allNonneg st) :
    allNonneg (applyOps st ops) := by
  induction ops generalizing st with
  | nil => simpa [applyOps] using h
  | cons op rest ih =>
      simp only [applyOps, List.foldl_cons]
      exact ih _ (applyOp_nonneg h op)

theorem balances_nonneg_witness :
    allNonneg [("A", ⟨"A", "a", 0, [], 0⟩), ("B", ⟨"B", "b", 0, [], 0⟩)] ∧
    allNonneg (applyOps
      [("A", ⟨"A", "a", 0, [], 0⟩), ("B", ⟨"B", "b", 0, [], 0⟩)]
      [.deposit "A" 1 2 100, .transfer "A" "B" 3 4 5 6 40,
       .withdraw "A" 7 8 1000]) :=
  ⟨by decide,
   balances_nonneg
     [.deposit "A" 1 2 100, .transfer "A" "B" 3 4 5 6 40,
      .withdraw "A" 7 8 1000] _ (by decide)⟩
